import Mathlib

/-!
Shallow embedding of the dynamic market-data query pipeline of
`src/core/stock_market/market_engine.py` (class `MarketEngine`):

* `StockQueryExtraction` / `StockQueryIntent` — the extraction data model;
* `selectColumns`, `aggColumns`, `selectClauseOf`, `buildDynamicSqlQuery`
  — the dynamic SQL builder `_build_dynamic_sql_query`;
* `buildTimeFilter` — the time-range resolver `_build_time_filter`;
* `generateResultSummary` — `_generate_result_summary`;
* `executeDynamicQuery` — `execute_dynamic_query`, with the SQLite store
  abstracted as a function from (sql, parameters) to either a row list or
  an error message (a Python exception's text).

SQLite REAL values are modelled as rationals, INTEGER as integers.  The
wall-clock `timestamp` field that the Python result dictionaries carry is
not modelled (it is `datetime.now()`), and logging calls are dropped.
-/

/-- A SQLite cell value as the Python layer sees it (`None`, `int`,
`float`, `str`).  Floats are idealised as rationals. -/
inductive SqlVal where
  | null
  | int (n : ℤ)
  | real (q : ℚ)
  | text (s : String)
deriving DecidableEq, Repr

/-- Python `s.lower()` (ASCII case mapping). -/
def pyLower (s : String) : String := String.mk (s.data.map Char.toLower)

/-- Python `s.upper()` (ASCII case mapping). -/
def pyUpper (s : String) : String := String.mk (s.data.map Char.toUpper)

/-- Python `sep.join(l)`. -/
def joinSep (sep : String) : List String → String
  | [] => ""
  | [x] => x
  | x :: y :: rest => x ++ sep ++ joinSep sep (y :: rest)

/-- Python truthiness of a cell value: `None`, `0`, `0.0` and `""` are
falsy, everything else truthy. -/
def pyTruthy : SqlVal → Bool
  | SqlVal.null => false
  | SqlVal.int n => n ≠ 0
  | SqlVal.real q => q ≠ 0
  | SqlVal.text s => s ≠ ""

/-- A result row, as the dict produced by `dict(row)` with
`sqlite3.Row` — an ordered association of column names to values. -/
abbrev Row : Type := List (String × SqlVal)

/-- First binding of a key, `none` when the key is absent. -/
def rowFind (r : Row) (k : String) : Option SqlVal :=
  match r with
  | [] => none
  | (k0, v) :: rest => if k0 = k then some v else rowFind rest k

/-- Python `row.get(k)`: the value, or `None` when the key is absent. -/
def pyGet (r : Row) (k : String) : SqlVal :=
  (rowFind r k).getD SqlVal.null

/-- Python `k in row` for a dict. -/
def rowHasKey (r : Row) (k : String) : Bool :=
  (rowFind r k).isSome

/-- The query-intent enumeration `StockQueryIntent`. -/
inductive StockQueryIntent where
  | price
  | trend
  | comparison
  | volume
  | volatility
  | technical
  | change
  | other
deriving DecidableEq, Repr

/-- `.value` of an intent member (the enum is a `str` enum). -/
def intentValue : StockQueryIntent → String
  | StockQueryIntent.price => "price"
  | StockQueryIntent.trend => "trend"
  | StockQueryIntent.comparison => "comparison"
  | StockQueryIntent.volume => "volume"
  | StockQueryIntent.volatility => "volatility"
  | StockQueryIntent.technical => "technical"
  | StockQueryIntent.change => "change"
  | StockQueryIntent.other => "other"

/-- The pydantic model `StockQueryExtraction`. -/
structure StockQueryExtraction where
  symbols : List String
  intent : Option StockQueryIntent := none
  time_range : Option String := none
  metrics : Option (List String) := none
  aggregation : Option String := none
deriving DecidableEq, Repr

/-- Python truthiness of an `Optional[str]` field. -/
def optStrTruthy : Option String → Bool
  | none => false
  | some s => s ≠ ""

/-- Python truthiness of an `Optional[List[str]]` field. -/
def optListTruthy : Option (List String) → Bool
  | none => false
  | some l => l ≠ []

/-- The intent-default column extensions of `_build_dynamic_sql_query`
(the `else` also covers `other` and an unset intent). -/
def defaultColumns : Option StockQueryIntent → List String
  | some StockQueryIntent.price => [ "open", "high", "low", "close"]
  | some StockQueryIntent.volume => [ "volume", "close"]
  | some StockQueryIntent.volatility => [ "volatility", "close", "atr"]
  | some StockQueryIntent.technical => [ "ma5", "ma10", "ma20", "rsi", "atr"]
  | some StockQueryIntent.trend => [ "close", "ma5", "ma20", "pct_change"]
  | some StockQueryIntent.comparison => [ "close", "rsi", "ma5", "ma20", "volume"]
  | some StockQueryIntent.change => [ "close", "pct_change", "open"]
  | _ => [ "open", "high", "low", "close", "volume"]

/-- Helper of `dedupKeepFirst`: drop elements already in `seen`. -/
def dedupAux {α : Type} [DecidableEq α] (seen : List α) : List α → List α
  | [] => []
  | x :: xs =>
    if seen.contains x then dedupAux seen xs
    else x :: dedupAux (x :: seen) xs

/-- Python `list(dict.fromkeys(l))`: duplicates removed, first
occurrence kept in place. -/
def dedupKeepFirst {α : Type} [DecidableEq α] (l : List α) : List α :=
  dedupAux [] l

/-- The deduplicated `select_columns` list: `["symbol", "timestamp"]`
extended with the explicit metrics (when the list is truthy) or the
intent defaults. -/
def selectColumns (e : StockQueryExtraction) : List String :=
  dedupKeepFirst
    ( [ "symbol", "timestamp"] ++
      (if optListTruthy e.metrics
       then e.metrics.getD []
       else defaultColumns e.intent))

/-- The aggregations that trigger wrapping and grouping. -/
def aggKeywords : List String := [ "avg", "sum", "max", "min"]

/-- The `agg_columns` loop: key columns are skipped under an
`aggKeywords` aggregation (kept raw otherwise), every other column is
wrapped as `AGG(col) as agg_col`. -/
def aggColumns (agg : String) : List String → List String
  | [] => []
  | col :: rest =>
    if col = "symbol" ∨ col = "timestamp" then
      if agg ∈ aggKeywords then aggColumns agg rest
      else col :: aggColumns agg rest
    else
      (pyUpper agg ++ "(" ++ col ++ ") as " ++ pyLower (pyUpper agg) ++ "_" ++ col)
        :: aggColumns agg rest

/-- The final `select_clause` string.  Under an `aggKeywords`
aggregation the code writes `f"symbol, {', '.join(agg_columns[1:])}"` —
the slice drops the first element of `agg_columns`, which at that point
holds only wrapped value columns (`symbol` and `timestamp` were skipped
by the `continue`). -/
def selectClauseOf (e : StockQueryExtraction) : String :=
  let cols := selectColumns e
  if optStrTruthy e.aggregation then
    let a := e.aggregation.getD ""
    let ac := aggColumns a cols
    if a ∈ aggKeywords then "symbol, " ++ joinSep ", " ac.tail
    else joinSep ", " ac
  else joinSep ", " cols

/-- ASCII digit, as matched by `\d` on ASCII input (other Unicode
digits that Python's `\d` also accepts are not modelled). -/
def pyIsDigit (c : Char) : Bool := '0' ≤ c && c ≤ '9'

/-- Python `\s` whitespace class (ASCII part). -/
def pyIsSpace (c : Char) : Bool :=
  c = ' ' || c = '\t' || c = '\n' || c = '\r' || c = '\x0b' || c = '\x0c'

/-- Numeric value of a non-empty digit string (`int(group(1))`). -/
def digitsVal (ds : List Char) : Nat :=
  ds.foldl (fun n c => 10 * n + (c.toNat - '0'.toNat)) 0

/-- `re.match(r"(\d+)\s*" + unit + "s?", s)`: one or more leading
digits, optional whitespace, then the unit word.  `re.match` anchors at
the start only and the optional `s` is followed by unconstrained text,
so requiring `unit` as a prefix of the remainder is exactly Python's
condition; the result is the numeric value of group 1. -/
def matchNumUnit (unit : String) (s : String) : Option Nat :=
  let cs := s.toList
  let ds := cs.takeWhile pyIsDigit
  if ds.isEmpty then none
  else
    let rest := (cs.dropWhile pyIsDigit).dropWhile pyIsSpace
    if unit.toList.isPrefixOf rest then some (digitsVal ds) else none

/-- The `time_filters` dict of `_build_time_filter`, embedded as
`dict.get` with default `("", [])` over its eight keys. -/
def timeFiltersGet (t : String) : String × List String :=
  if t = "today" then ( "timestamp >= date('now')", [])
  else if t = "yesterday" then
    ( "timestamp >= date('now', '-1 day') AND timestamp < date('now')", [])
  else if t = "last week" then ( "timestamp >= date('now', '-7 days')", [])
  else if t = "this week" then
    ( "timestamp >= date('now', 'weekday 0', '-6 days')", [])
  else if t = "last month" then ( "timestamp >= date('now', '-1 month')", [])
  else if t = "this month" then
    ( "timestamp >= date('now', 'start of month')", [])
  else if t = "last year" then ( "timestamp >= date('now', '-1 year')", [])
  else if t = "this year" then
    ( "timestamp >= date('now', 'start of year')", [])
  else ( "", [])

/-- `MarketEngine._build_time_filter`: lowercase the phrase, try the
day / week / month numeric patterns, then the fixed vocabulary, with
`("", [])` as the fallback.  (In the source the regexes run before the
`dict.get`; no vocabulary key starts with a digit, so the order shown
is the source's.) -/
def buildTimeFilter (time_range : String) : String × List String :=
  let t := pyLower time_range
  match matchNumUnit "day" t with
  | some n => ( "timestamp >= date('now', '-" ++ toString n ++ " days')", [])
  | none =>
  match matchNumUnit "week" t with
  | some n =>
      ( "timestamp >= date('now', '-" ++ toString (n * 7) ++ " days')", [])
  | none =>
  match matchNumUnit "month" t with
  | some n =>
      ( "timestamp >= date('now', '-" ++ toString n ++ " months')", [])
  | none => timeFiltersGet t

/-- The fixed per-symbol record cap of the comparison fan-out. -/
def recordsPerSymbol : Nat := 25

/-- `MarketEngine._build_dynamic_sql_query`: the built SQL text, the
parameter list, and the multi-query flag (the third tuple element the
source returns). -/
def buildDynamicSqlQuery (e : StockQueryExtraction) :
    String × List String × Bool :=
  let sc := selectClauseOf e
  if e.intent = some StockQueryIntent.comparison ∧ 1 < e.symbols.length then
    let q0 := "SELECT " ++ sc ++ " FROM stock_data WHERE symbol = ?"
    let q1 :=
      if optStrTruthy e.time_range then
        let tf := buildTimeFilter (e.time_range.getD "")
        if tf.1 ≠ "" then q0 ++ " AND " ++ tf.1 else q0
      else q0
    (q1 ++ " ORDER BY timestamp DESC LIMIT " ++ toString recordsPerSymbol,
      e.symbols, true)
  else
    let swp : List String × List String :=
      if e.symbols ≠ [] then
        ([ "symbol IN (" ++
            joinSep ", " (e.symbols.map (fun _ => "?")) ++ ")"],
          e.symbols)
      else ([], [])
    let twp : List String × List String :=
      if optStrTruthy e.time_range then
        let tf := buildTimeFilter (e.time_range.getD "")
        if tf.1 ≠ "" then ([tf.1], tf.2) else ([], [])
      else ([], [])
    let whereConds := swp.1 ++ twp.1
    let params := swp.2 ++ twp.2
    let q0 := "SELECT " ++ sc ++ " FROM stock_data"
    let q1 :=
      if whereConds ≠ [] then
        q0 ++ " WHERE " ++ joinSep " AND " whereConds
      else q0
    let q2 :=
      if optStrTruthy e.aggregation ∧ (e.aggregation.getD "") ∈ aggKeywords
      then q1 ++ " GROUP BY symbol"
      else q1
    let q3 := q2 ++ " ORDER BY timestamp DESC"
    let q4 := if optStrTruthy e.aggregation then q3 else q3 ++ " LIMIT 50"
    (q4, params, false)

/-- A summary value: the strings, numbers, lists and nested dicts that
`_generate_result_summary` stores, plus a raw row list (the exception
handler writes `summary["message"] = data`). -/
inductive SVal where
  | str (s : String)
  | num (q : ℚ)
  | intv (n : ℤ)
  | rows (d : List Row)
  | valList (l : List SqlVal)
  | valMap (m : List (SqlVal × SqlVal))
  | rowMap (m : List (SqlVal × Row))
deriving DecidableEq, Repr

/-- The summary dict, in insertion order. -/
abbrev Summary : Type := List (String × SVal)

/-- Python `d[k] = v` on a dict: update in place when the key exists,
append otherwise. -/
def dictSet (s : Summary) (k : String) (v : SVal) : Summary :=
  match s with
  | [] => [(k, v)]
  | (k0, v0) :: rest =>
    if k0 = k then (k0, v) :: rest else (k0, v0) :: dictSet rest k v

/-- Lookup in a summary dict. -/
def dictGet (s : Summary) (k : String) : Option SVal :=
  match s with
  | [] => none
  | (k0, v) :: rest => if k0 = k then some v else dictGet rest k

/-- Python `+` on cell values: defined on numbers, a `TypeError` (the
`Except.error`) on `None` or strings mixed into `sum`. -/
def addVal (a b : SqlVal) : Except String SqlVal :=
  match a, b with
  | SqlVal.int m, SqlVal.int n => Except.ok (SqlVal.int (m + n))
  | SqlVal.int m, SqlVal.real q => Except.ok (SqlVal.real (m + q))
  | SqlVal.real p, SqlVal.int n => Except.ok (SqlVal.real (p + n))
  | SqlVal.real p, SqlVal.real q => Except.ok (SqlVal.real (p + q))
  | _, _ => Except.error "unsupported operand type(s) for +"

/-- Python `sum(l)`: fold `+` starting from the int `0`. -/
def sumVals (l : List SqlVal) : Except String SqlVal :=
  l.foldlM addVal (SqlVal.int 0)

/-- The rational carried by a numeric cell value. -/
def valToQ : SqlVal → ℚ
  | SqlVal.int n => (n : ℚ)
  | SqlVal.real q => q
  | _ => 0

/-- Round to the nearest integer, ties to even — Python's `round` and
`format`, idealised over exact rationals. -/
def roundHalfEven (x : ℚ) : ℤ :=
  let f := ⌊x⌋
  let r := x - (f : ℚ)
  if r < 1 / 2 then f
  else if 1 / 2 < r then f + 1
  else if Even f then f else f + 1

/-- Python `round(x, 4)`. -/
def round4 (q : ℚ) : ℚ := ((roundHalfEven (q * 10000) : ℤ) : ℚ) / 10000

/-- Python `int(x)`: truncation toward zero. -/
def truncToInt (q : ℚ) : ℤ := if 0 ≤ q then ⌊q⌋ else ⌈q⌉

/-- Zero-pad a numeral to four digits. -/
def pad4 (n : Nat) : String :=
  let s := toString n
  String.mk (List.replicate (4 - s.length) '0') ++ s

/-- Python `f"{x:.4f}"` over exact rationals. -/
def formatFixed4 (q : ℚ) : String :=
  let n := roundHalfEven (q * 10000)
  let a := n.natAbs
  (if n < 0 then "-" else "") ++ toString (a / 10000) ++ "." ++ pad4 (a % 10000)

/-- Comma-group a reversed digit list in threes. -/
def revGroup3 : List Char → List Char
  | a :: b :: c :: d :: rest => a :: b :: c :: ',' :: revGroup3 (d :: rest)
  | l => l

/-- Python `f"{x:,.0f}"`: round to an integer (half to even), digits
grouped in threes by commas. -/
def formatComma0 (q : ℚ) : String :=
  let n := roundHalfEven q
  let ds := (toString n.natAbs).toList
  (if n < 0 then "-" else "") ++ String.mk (revGroup3 ds.reverse).reverse

/-- The `latest_prices` pass of the price branch: first row per truthy
symbol, mapped to its `close` value, in first-seen order. -/
def latestPricesOf (data : List Row) : List (SqlVal × SqlVal) :=
  data.foldl
    (fun acc r =>
      let sym := pyGet r "symbol"
      if pyTruthy sym && !((acc.map Prod.fst).contains sym) then
        acc ++ [(sym, pyGet r "close")]
      else acc)
    []

/-- The `latest_by_symbol` pass of the comparison branch: first row per
truthy symbol, with the `id` key removed. -/
def latestValuesOf (data : List Row) : List (SqlVal × Row) :=
  data.foldl
    (fun acc r =>
      let sym := pyGet r "symbol"
      if pyTruthy sym && !((acc.map Prod.fst).contains sym) then
        acc ++ [(sym, r.filter (fun kv => kv.1 ≠ "id"))]
      else acc)
    []

/-- The truthy values of column `k` across the rows (`[row.get(k) for
row in data if row.get(k)]` — note nulls AND zeros are dropped). -/
def truthyColumn (data : List Row) (k : String) : List SqlVal :=
  data.filterMap
    (fun r =>
      let v := pyGet r k
      if pyTruthy v then some v else none)

/-- The per-symbol technical dict: the five indicator columns that are
present and non-null in the row. -/
def techDataOf (r : Row) : Row :=
  [ "ma5", "ma10", "ma20", "rsi", "atr"].filterMap
    (fun m =>
      match rowFind r m with
      | some v => if v ≠ SqlVal.null then some (m, v) else none
      | none => none)

/-- The `latest_technical` pass of the technical branch. -/
def latestTechnicalOf (data : List Row) : List (SqlVal × Row) :=
  data.foldl
    (fun acc r =>
      let sym := pyGet r "symbol"
      if pyTruthy sym && !((acc.map Prod.fst).contains sym) then
        acc ++ [(sym, techDataOf r)]
      else acc)
    []

/-- The `try` block of `_generate_result_summary` over non-empty data
(`d0` is `data[0]`).  The result is the built summary; an `Except.error`
models a Python exception escaping to the `except` handler and carries
the summary as mutated so far.  The only fallible steps are the `sum`
calls over column values.  `list(set(...))` iterates a Python set in
unspecified order; it is modelled in first-occurrence order. -/
def summaryTry (e : StockQueryExtraction) (data : List Row) (d0 : Row) :
    Except Summary Summary :=
  let s : Summary := []
  let branch : Except Summary Summary :=
    match e.intent with
    | some StockQueryIntent.price =>
      if optStrTruthy e.aggregation then
        Except.ok (dictSet s "message"
          (SVal.str ( "Price analysis with " ++ e.aggregation.getD "" ++
            " aggregation")))
      else
        let lp := latestPricesOf data
        let s1 := dictSet s "latest_prices" (SVal.valMap lp)
        Except.ok (dictSet s1 "message"
          (SVal.str ( "Current prices for " ++ toString lp.length ++
            " symbols")))
    | some StockQueryIntent.comparison =>
      let syms := dedupKeepFirst (truthyColumn data "symbol")
      let s1 := dictSet s "symbols_compared" (SVal.valList syms)
      let s2 := dictSet s1 "message"
        (SVal.str ( "Comparison data for " ++ toString syms.length ++
          " symbols"))
      Except.ok (dictSet s2 "latest_values" (SVal.rowMap (latestValuesOf data)))
    | some StockQueryIntent.volatility =>
      if rowHasKey d0 "volatility" then
        let vols := truthyColumn data "volatility"
        if vols = [] then Except.ok s
        else
          match sumVals vols with
          | Except.error _ => Except.error s
          | Except.ok total =>
            let avg := valToQ total / (vols.length : ℚ)
            let s1 := dictSet s "average_volatility" (SVal.num (round4 avg))
            Except.ok (dictSet s1 "message"
              (SVal.str ( "Average volatility: " ++ formatFixed4 avg)))
      else Except.ok s
    | some StockQueryIntent.technical =>
      let cnt := (dedupKeepFirst (data.map (fun r => pyGet r "symbol"))).length
      let s1 := dictSet s "message"
        (SVal.str ( "Technical indicators for " ++ toString cnt ++ " symbols"))
      Except.ok
        (dictSet s1 "technical_indicators"
          (SVal.rowMap (latestTechnicalOf data)))
    | some StockQueryIntent.volume =>
      if optStrTruthy e.aggregation && rowHasKey d0 "avg_volume" then
        Except.ok (dictSet s "message"
          (SVal.str "Volume analysis with aggregation"))
      else
        let vols := truthyColumn data "volume"
        if vols = [] then Except.ok s
        else
          match sumVals vols with
          | Except.error _ => Except.error s
          | Except.ok total =>
            let avg := valToQ total / (vols.length : ℚ)
            let s1 := dictSet s "average_volume" (SVal.intv (truncToInt avg))
            Except.ok (dictSet s1 "message"
              (SVal.str ( "Average volume: " ++ formatComma0 avg)))
    | _ =>
      Except.ok (dictSet s "message"
        (SVal.str ( "Retrieved " ++ toString data.length ++ " records")))
  match branch with
  | Except.error s1 => Except.error s1
  | Except.ok s1 =>
    Except.ok
      (if optStrTruthy e.time_range then
        dictSet s1 "time_range" (SVal.str (e.time_range.getD ""))
      else s1)

/-- `MarketEngine._generate_result_summary`: the empty-data message,
otherwise the `try` block with the `except` handler setting
`summary["message"] = data` on the partially built summary. -/
def generateResultSummary (e : StockQueryExtraction) (data : List Row) :
    Summary :=
  match data with
  | [] => [( "message", SVal.str "No data found for the specified criteria")]
  | d0 :: _ =>
    match summaryTry e data d0 with
    | Except.ok s => s
    | Except.error ps => dictSet ps "message" (SVal.rows data)

/-- The sort key of `all_data.sort(key=lambda x: (x.get('symbol', ''),
x.get('timestamp', '')), reverse=True)`: the two text fields, with `""`
when the key is absent.  (Rows whose symbol or timestamp is not text
are also mapped to `""`; the schema stores both as TEXT.) -/
def sortKey (r : Row) : String × String :=
  let f := fun k =>
    match rowFind r k with
    | some (SqlVal.text s) => s
    | _ => ""
  (f "symbol", f "timestamp")

/-- Lexicographic comparison of char lists by code point — Python's
string `<=`. -/
def charsLe : List Char → List Char → Bool
  | [], _ => true
  | _ :: _, [] => false
  | a :: as, b :: bs =>
    if a.toNat < b.toNat then true
    else if b.toNat < a.toNat then false
    else charsLe as bs

/-- Strict version of `charsLe`. -/
def charsLt : List Char → List Char → Bool
  | [], [] => false
  | [], _ :: _ => true
  | _ :: _, [] => false
  | a :: as, b :: bs =>
    if a.toNat < b.toNat then true
    else if b.toNat < a.toNat then false
    else charsLt as bs

/-- Lexicographic order on the (symbol, timestamp) key pairs — Python's
tuple comparison over strings. -/
def keyLe (a b : String × String) : Bool :=
  if charsLt a.1.data b.1.data then true
  else if charsLt b.1.data a.1.data then false
  else charsLe a.2.data b.2.data

/-- The comparator realising `reverse=True`: row `x` precedes row `y`
when `y`'s key is lexicographically at most `x`'s. -/
def descLe (x y : Row) : Bool := keyLe (sortKey y) (sortKey x)

/-- The Python stable sort of the combined comparison results. -/
def pySortDesc (l : List Row) : List Row := l.mergeSort descLe

/-- The parameter list of one per-symbol query of the comparison
fan-out: the symbol, then the time-filter parameters recomputed by
`execute_dynamic_query`. -/
def multiParams (e : StockQueryExtraction) (sym : String) : List String :=
  sym ::
    (if optStrTruthy e.time_range then
      (buildTimeFilter (e.time_range.getD "")).2
    else [])

/-- The body of the per-symbol loop of `execute_dynamic_query`, with
`acc` the `all_data` accumulator: run the built query for each symbol
and extend the accumulator; a store failure aborts the loop with its
exception. -/
def runMultiAux (db : String → List String → Except String (List Row))
    (e : StockQueryExtraction) (sql : String) (acc : List Row) :
    List String → Except String (List Row)
  | [] => Except.ok acc
  | sym :: rest =>
    match db sql (multiParams e sym) with
    | Except.error m => Except.error m
    | Except.ok rows => runMultiAux db e sql (acc ++ rows) rest

/-- The per-symbol loop of `execute_dynamic_query`, starting from the
empty `all_data`. -/
def runMulti (db : String → List String → Except String (List Row))
    (e : StockQueryExtraction) (sql : String) (symbols : List String) :
    Except String (List Row) :=
  runMultiAux db e sql [] symbols

/-- The `query_info` sub-dictionary of a result. -/
structure QueryInfo where
  symbols : List String
  intent : Option String
  time_range : Option String
  metrics : Option (List String) := none
  aggregation : Option String := none
deriving DecidableEq, Repr

/-- `query_info` as built on the success paths. -/
def fullQueryInfo (e : StockQueryExtraction) : QueryInfo :=
  { symbols := e.symbols
    intent := e.intent.map intentValue
    time_range := e.time_range
    metrics := e.metrics
    aggregation := e.aggregation }

/-- `query_info` of the error dictionary: the source writes only
`symbols`, `intent` and `time_range` there; the two absent keys are
modelled as `none`. -/
def errQueryInfo (e : StockQueryExtraction) : QueryInfo :=
  { symbols := e.symbols
    intent := e.intent.map intentValue
    time_range := e.time_range }

/-- The result dictionary of `execute_dynamic_query`.  Keys the error
path leaves out are `none`; the wall-clock `timestamp` key is not
modelled. -/
structure QueryResult where
  status : String
  query_info : QueryInfo
  sql_query : Option String := none
  record_count : Option Nat := none
  data : Option (List Row) := none
  summary : Option Summary := none
  error : Option String := none
deriving DecidableEq, Repr

/-- The `status: "error"` dictionary of the `except` block. -/
def errorResult (e : StockQueryExtraction) (msg : String) : QueryResult :=
  { status := "error", query_info := errQueryInfo e, error := some msg }

/-- The `status: "success"` dictionary. -/
def successResult (e : StockQueryExtraction) (sqlShown : String)
    (data : List Row) : QueryResult :=
  { status := "success"
    query_info := fullQueryInfo e
    sql_query := some sqlShown
    record_count := some data.length
    data := some data
    summary := some (generateResultSummary e data) }

/-- `MarketEngine.execute_dynamic_query` with the store abstracted as
`db`.  A raised store exception is an `Except.error`, turned into the
error dictionary by the surrounding `try`; the function itself is total
— nothing propagates to the caller. -/
def executeDynamicQuery (e : StockQueryExtraction)
    (db : String → List String → Except String (List Row)) : QueryResult :=
  match buildDynamicSqlQuery e with
  | (sql, symbols, true) =>
    match runMulti db e sql symbols with
    | Except.error m => errorResult e m
    | Except.ok allData =>
      let sorted := pySortDesc allData
      successResult e
        ( "Multiple queries executed for " ++ toString symbols.length ++
          " symbols: " ++ sql)
        sorted
  | (sql, params, false) =>
    match db sql params with
    | Except.error m => errorResult e m
    | Except.ok rows => successResult e sql rows

/-- `ps` occurs as a contiguous run inside `l`. -/
def subListAt (ps : List Char) : List Char → Bool
  | [] => ps.isEmpty
  | c :: rest => ps.isPrefixOf (c :: rest) || subListAt ps rest

/-- Substring test over the embedded SQL strings. -/
def strContains (s pat : String) : Bool := subListAt pat.data s.data

/-- The eight keys of the `time_filters` vocabulary. -/
def vocabPhrases : List String :=
  [ "today", "yesterday", "last week", "this week",
    "last month", "this month", "last year", "this year"]

/-- Membership of a (lowercased) phrase in the fixed vocabulary. -/
def recognizedVocab (t : String) : Bool := vocabPhrases.contains t

/-- The phrases `_build_time_filter` recognizes: the vocabulary, or a
lowercased phrase *starting with* one of the three numeric patterns
(`re.match` anchors at the start only). -/
def recognizedPhrase (s : String) : Bool :=
  let t := pyLower s
  (matchNumUnit "day" t).isSome || (matchNumUnit "week" t).isSome ||
    (matchNumUnit "month" t).isSome || recognizedVocab t

/-- A phrase that is *exactly* the numeric pattern `"<N> unit(s)"`:
digits, optional whitespace, the unit word, an optional trailing `s`,
and nothing after it. -/
def exactNumUnit (unit : String) (s : String) : Bool :=
  let cs := (pyLower s).data
  let ds := cs.takeWhile pyIsDigit
  let rest := (cs.dropWhile pyIsDigit).dropWhile pyIsSpace
  !ds.isEmpty && (rest = unit.data || rest = unit.data ++ ['s'])

/-- A sample comparison extraction over two symbols (witness input). -/
def extC1 : StockQueryExtraction :=
  { symbols := [ "AAPL", "MSFT"], intent := some StockQueryIntent.comparison }

/-- A sample AAPL row (witness input). -/
def rowC1a : Row :=
  [( "symbol", SqlVal.text "AAPL"), ( "timestamp", SqlVal.text "2024-01-02")]

/-- A sample MSFT row (witness input). -/
def rowC1b : Row :=
  [( "symbol", SqlVal.text "MSFT"), ( "timestamp", SqlVal.text "2024-01-03")]

/-- The per-symbol rows a sample store returns (witness input). -/
def fetchC1 : String → List Row :=
  fun s => if s = "AAPL" then [rowC1a] else [rowC1b]

/-- A sample store keyed on the bound symbol parameter (witness
input). -/
def dbC1 : String → List String → Except String (List Row) :=
  fun _ ps => Except.ok (if ps = [ "AAPL"] then [rowC1a] else [rowC1b])

/-! ### Generic lemmas about the embedded list and dict operations -/

theorem mem_dedupAux {α : Type} [DecidableEq α] (seen : List α) (l : List α)
    (x : α) : x ∈ dedupAux seen l ↔ x ∈ l ∧ x ∉ seen := by
  induction l generalizing seen with
  | nil => simp [dedupAux]
  | cons y ys ih =>
    rw [dedupAux]
    by_cases hy : y ∈ seen
    · rw [if_pos (by simpa using hy), ih]
      constructor
      · rintro ⟨hx, hs⟩
        exact ⟨List.mem_cons_of_mem _ hx, hs⟩
      · rintro ⟨hx, hs⟩
        rcases List.mem_cons.mp hx with rfl | hx
        · exact absurd hy hs
        · exact ⟨hx, hs⟩
    · rw [if_neg (by simpa using hy)]
      simp only [List.mem_cons, ih]
      constructor
      · rintro (rfl | ⟨hx, hs⟩)
        · exact ⟨Or.inl rfl, hy⟩
        · exact ⟨Or.inr hx, fun hc => hs (Or.inr hc)⟩
      · rintro ⟨hmem, hs⟩
        rcases hmem with rfl | hx
        · exact Or.inl rfl
        · by_cases hxy : x = y
          · exact Or.inl hxy
          · exact Or.inr ⟨hx, fun hc => hc.elim hxy hs⟩

theorem dedupAux_sublist {α : Type} [DecidableEq α] (seen : List α)
    (l : List α) : (dedupAux seen l).Sublist l := by
  induction l generalizing seen with
  | nil => simp [dedupAux]
  | cons y ys ih =>
    rw [dedupAux]
    by_cases hy : seen.contains y
    · rw [if_pos hy]
      exact (ih seen).cons y
    · rw [if_neg hy]
      exact (ih (y :: seen)).cons₂ y

theorem dedupAux_nodup {α : Type} [DecidableEq α] (seen : List α)
    (l : List α) : (dedupAux seen l).Nodup := by
  induction l generalizing seen with
  | nil => simp [dedupAux]
  | cons y ys ih =>
    rw [dedupAux]
    by_cases hy : seen.contains y
    · rw [if_pos hy]; exact ih seen
    · rw [if_neg hy]
      refine List.nodup_cons.mpr ⟨fun hc => ?_, ih (y :: seen)⟩
      exact ((mem_dedupAux _ _ _).mp hc).2 (List.mem_cons_self _ _)

theorem mem_dedupKeepFirst {α : Type} [DecidableEq α] (l : List α) (x : α) :
    x ∈ dedupKeepFirst l ↔ x ∈ l := by
  rw [dedupKeepFirst, mem_dedupAux]
  simp

theorem dedupKeepFirst_sublist {α : Type} [DecidableEq α] (l : List α) :
    (dedupKeepFirst l).Sublist l := dedupAux_sublist [] l

theorem dedupKeepFirst_nodup {α : Type} [DecidableEq α] (l : List α) :
    (dedupKeepFirst l).Nodup := dedupAux_nodup [] l

theorem dictGet_dictSet_self (s : Summary) (k : String) (v : SVal) :
    dictGet (dictSet s k v) k = some v := by
  induction s with
  | nil => simp [dictSet, dictGet]
  | cons kv rest ih =>
    obtain ⟨k0, v0⟩ := kv
    simp only [dictSet]
    by_cases h0 : k0 = k
    · rw [if_pos h0]
      subst h0
      simp [dictGet]
    · rw [if_neg h0]
      simp only [dictGet]
      rw [if_neg h0, ih]

theorem dictGet_dictSet_ne (s : Summary) (k k' : String) (v : SVal)
    (h : k' ≠ k) : dictGet (dictSet s k v) k' = dictGet s k' := by
  induction s with
  | nil =>
    simp only [dictSet, dictGet]
    rw [if_neg (fun hh => h hh.symm)]
  | cons kv rest ih =>
    obtain ⟨k0, v0⟩ := kv
    simp only [dictSet]
    by_cases h0 : k0 = k
    · rw [if_pos h0]
      subst h0
      simp only [dictGet]
      rw [if_neg (fun hh => h hh.symm), if_neg (fun hh => h hh.symm)]
    · rw [if_neg h0]
      simp only [dictGet]
      by_cases h1 : k0 = k'
      · rw [if_pos h1, if_pos h1]
      · rw [if_neg h1, if_neg h1, ih]

theorem char_eq_of_toNat_eq {c d : Char} (h : c.toNat = d.toNat) : c = d :=
  Char.eq_of_val_eq (UInt32.ext h)

theorem charsLt_both_false {a b : List Char} (hab : charsLt a b = false)
    (hba : charsLt b a = false) : a = b := by
  induction a generalizing b with
  | nil =>
    cases b with
    | nil => rfl
    | cons y ys => simp [charsLt] at hab
  | cons x xs ih =>
    cases b with
    | nil => simp [charsLt] at hba
    | cons y ys =>
      rw [charsLt] at hab hba
      by_cases h1 : x.toNat < y.toNat
      · rw [if_pos h1] at hab; cases hab
      · rw [if_neg h1] at hab
        by_cases h2 : y.toNat < x.toNat
        · rw [if_pos h2] at hba; cases hba
        · rw [if_neg h2] at hab
          rw [if_neg h2, if_neg h1] at hba
          have hx : x = y := char_eq_of_toNat_eq (by omega)
          rw [hx, ih hab hba]

theorem charsLt_trans {a b c : List Char} (h1 : charsLt a b = true)
    (h2 : charsLt b c = true) : charsLt a c = true := by
  induction a generalizing b c with
  | nil =>
    cases b with
    | nil => cases h1
    | cons y ys =>
      cases c with
      | nil => cases h2
      | cons z zs => rfl
  | cons x xs ih =>
    cases b with
    | nil => cases h1
    | cons y ys =>
      cases c with
      | nil => cases h2
      | cons z zs =>
        rw [charsLt] at h1 h2 ⊢
        by_cases hxy : x.toNat < y.toNat
        · by_cases hyz : y.toNat < z.toNat
          · rw [if_pos (by omega)]
          · rw [if_neg hyz] at h2
            by_cases hzy : z.toNat < y.toNat
            · rw [if_pos hzy] at h2; cases h2
            · rw [if_pos (by omega)]
        · rw [if_neg hxy] at h1
          by_cases hyx : y.toNat < x.toNat
          · rw [if_pos hyx] at h1; cases h1
          · rw [if_neg hyx] at h1
            by_cases hyz : y.toNat < z.toNat
            · rw [if_pos (by omega)]
            · rw [if_neg hyz] at h2
              by_cases hzy : z.toNat < y.toNat
              · rw [if_pos hzy] at h2; cases h2
              · rw [if_neg hzy] at h2
                rw [if_neg (by omega), if_neg (by omega)]
                exact ih h1 h2

theorem charsLe_total (a b : List Char) :
    (charsLe a b || charsLe b a) = true := by
  induction a generalizing b with
  | nil => simp [charsLe]
  | cons x xs ih =>
    cases b with
    | nil => simp [charsLe]
    | cons y ys =>
      rw [charsLe, charsLe]
      by_cases hxy : x.toNat < y.toNat
      · rw [if_pos hxy]; simp
      · rw [if_neg hxy]
        by_cases hyx : y.toNat < x.toNat
        · simp [hyx]
        · rw [if_neg hyx, if_neg hxy, if_neg hyx]
          exact ih ys

theorem charsLe_trans {a b c : List Char} (h1 : charsLe a b = true)
    (h2 : charsLe b c = true) : charsLe a c = true := by
  induction a generalizing b c with
  | nil => cases c <;> rfl
  | cons x xs ih =>
    cases b with
    | nil => cases h1
    | cons y ys =>
      cases c with
      | nil => cases h2
      | cons z zs =>
        rw [charsLe] at h1 h2 ⊢
        by_cases hxy : x.toNat < y.toNat
        · by_cases hyz : y.toNat < z.toNat
          · rw [if_pos (by omega)]
          · rw [if_neg hyz] at h2
            by_cases hzy : z.toNat < y.toNat
            · rw [if_pos hzy] at h2; cases h2
            · rw [if_pos (by omega)]
        · rw [if_neg hxy] at h1
          by_cases hyx : y.toNat < x.toNat
          · rw [if_pos hyx] at h1; cases h1
          · rw [if_neg hyx] at h1
            by_cases hyz : y.toNat < z.toNat
            · rw [if_pos (by omega)]
            · rw [if_neg hyz] at h2
              by_cases hzy : z.toNat < y.toNat
              · rw [if_pos hzy] at h2; cases h2
              · rw [if_neg hzy] at h2
                rw [if_neg (by omega), if_neg (by omega)]
                exact ih h1 h2

theorem keyLe_trans {a b c : String × String} (h1 : keyLe a b = true)
    (h2 : keyLe b c = true) : keyLe a c = true := by
  rw [keyLe] at h1 h2 ⊢
  by_cases hab : charsLt a.1.data b.1.data = true
  · by_cases hbc : charsLt b.1.data c.1.data = true
    · rw [if_pos (charsLt_trans hab hbc)]
    · rw [if_neg hbc] at h2
      by_cases hcb : charsLt c.1.data b.1.data = true
      · rw [if_pos hcb] at h2; cases h2
      · have hbceq : b.1.data = c.1.data :=
          charsLt_both_false (by simpa using hbc) (by simpa using hcb)
        rw [if_pos (by rw [← hbceq]; exact hab)]
  · rw [if_neg hab] at h1
    by_cases hba : charsLt b.1.data a.1.data = true
    · rw [if_pos hba] at h1; cases h1
    · rw [if_neg hba] at h1
      have habeq : a.1.data = b.1.data :=
        charsLt_both_false (by simpa using hab) (by simpa using hba)
      by_cases hbc : charsLt b.1.data c.1.data = true
      · rw [if_pos (by rw [habeq]; exact hbc)]
      · rw [if_neg hbc] at h2
        by_cases hcb : charsLt c.1.data b.1.data = true
        · rw [if_pos hcb] at h2; cases h2
        · rw [if_neg hcb] at h2
          rw [if_neg (by rw [habeq]; exact hbc),
            if_neg (by rw [habeq]; exact hcb)]
          exact charsLe_trans h1 h2

theorem keyLe_total (a b : String × String) :
    (keyLe a b || keyLe b a) = true := by
  rw [keyLe, keyLe]
  by_cases hab : charsLt a.1.data b.1.data = true
  · rw [if_pos hab]; simp
  · rw [if_neg hab]
    by_cases hba : charsLt b.1.data a.1.data = true
    · simp [hba]
    · rw [if_neg hba, if_neg hab, if_neg hba]
      exact charsLe_total a.2.data b.2.data

theorem descLe_trans (x y z : Row) (h1 : descLe x y = true)
    (h2 : descLe y z = true) : descLe x z = true :=
  keyLe_trans h2 h1

theorem descLe_total (x y : Row) : (descLe x y || descLe y x) = true :=
  keyLe_total (sortKey y) (sortKey x)

theorem foldlM_addVal_real (qs : List ℚ) (a : ℚ) :
    List.foldlM addVal (SqlVal.real a) (qs.map SqlVal.real) =
      Except.ok (SqlVal.real (a + qs.sum)) := by
  induction qs generalizing a with
  | nil => simp [List.foldlM_nil, pure, Except.pure]
  | cons q qs ih =>
    simp only [List.map_cons, List.foldlM_cons, addVal]
    simp only [Bind.bind, Except.bind]
    rw [ih]
    rw [List.sum_cons]
    ring_nf

theorem sumVals_map_real (qs : List ℚ) (hne : qs ≠ []) :
    sumVals (qs.map SqlVal.real) = Except.ok (SqlVal.real qs.sum) := by
  cases qs with
  | nil => cases hne rfl
  | cons q qs =>
    rw [sumVals]
    simp only [List.map_cons, List.foldlM_cons, addVal]
    simp only [Bind.bind, Except.bind]
    rw [foldlM_addVal_real]
    rw [List.sum_cons]
    norm_num

theorem runMultiAux_ok (db : String → List String → Except String (List Row))
    (e : StockQueryExtraction) (sql : String) (fetch : String → List Row)
    (symbols : List String) (acc : List Row)
    (h : ∀ s ∈ symbols, db sql (multiParams e s) = Except.ok (fetch s)) :
    runMultiAux db e sql acc symbols =
      Except.ok (acc ++ (symbols.map fetch).flatten) := by
  induction symbols generalizing acc with
  | nil => simp [runMultiAux]
  | cons s rest ih =>
    rw [runMultiAux, h s (List.mem_cons_self _ _)]
    dsimp only
    rw [ih (acc ++ fetch s) (fun t ht => h t (List.mem_cons_of_mem _ ht))]
    simp [List.append_assoc]

theorem subListAt_of_isPrefixOf {ps l : List Char}
    (h : ps.isPrefixOf l = true) : subListAt ps l = true := by
  cases l with
  | nil =>
    cases ps with
    | nil => rfl
    | cons c cs => simp [List.isPrefixOf] at h
  | cons c rest => simp [subListAt, h]

theorem subListAt_cons {ps l : List Char} (c : Char)
    (h : subListAt ps l = true) : subListAt ps (c :: l) = true := by
  simp [subListAt, h]

theorem subListAt_append_right {ps l2 : List Char} (l1 : List Char)
    (h : subListAt ps l2 = true) : subListAt ps (l1 ++ l2) = true := by
  induction l1 with
  | nil => simpa
  | cons c cs ih => simpa [List.cons_append] using subListAt_cons c ih

theorem strContains_of_prefix (s pat : String) (h : pat.data <+: s.data) :
    strContains s pat = true :=
  subListAt_of_isPrefixOf (List.isPrefixOf_iff_prefix.mpr h)

theorem strContains_append_right (s t pat : String)
    (h : strContains t pat = true) : strContains (s ++ t) pat = true := by
  rw [strContains, String.data_append]
  exact subListAt_append_right _ h

/-- Every built query is `SELECT <select_clause> ...`: the select clause
decided by `selectClauseOf` opens the SQL text in both branches. -/
theorem build_query_select (e : StockQueryExtraction) :
    ∃ rest, (buildDynamicSqlQuery e).1 =
      "SELECT " ++ selectClauseOf e ++ rest := by
  rw [buildDynamicSqlQuery]
  by_cases h : e.intent = some StockQueryIntent.comparison ∧
      1 < e.symbols.length
  · rw [if_pos h]
    dsimp only
    by_cases ht : optStrTruthy e.time_range = true
    · rw [if_pos ht]
      by_cases hc : (buildTimeFilter (e.time_range.getD "")).1 ≠ ""
      · rw [if_pos hc]
        exact ⟨_, by simp only [String.append_assoc]; rfl⟩
      · rw [if_neg hc]
        exact ⟨_, by simp only [String.append_assoc]; rfl⟩
    · rw [if_neg ht]
      exact ⟨_, by simp only [String.append_assoc]; rfl⟩
  · rw [if_neg h]
    dsimp only
    by_cases hw : (if e.symbols ≠ [] then
        ([ "symbol IN (" ++ joinSep ", " (e.symbols.map fun _ => "?") ++ ")"],
          e.symbols)
      else ([], [])).1 ++
        (if optStrTruthy e.time_range = true then
          if (buildTimeFilter (e.time_range.getD "")).1 ≠ "" then
            ([(buildTimeFilter (e.time_range.getD "")).1],
              (buildTimeFilter (e.time_range.getD "")).2)
          else ([], [])
        else ([], [])).1 ≠ []
    · rw [if_pos hw]
      by_cases hg : optStrTruthy e.aggregation = true ∧
          e.aggregation.getD "" ∈ aggKeywords
      · rw [if_pos hg]
        by_cases ha : optStrTruthy e.aggregation = true
        · rw [if_pos ha]
          exact ⟨_, by simp only [String.append_assoc]; rfl⟩
        · rw [if_neg ha]
          exact ⟨_, by simp only [String.append_assoc]; rfl⟩
      · rw [if_neg hg]
        by_cases ha : optStrTruthy e.aggregation = true
        · rw [if_pos ha]
          exact ⟨_, by simp only [String.append_assoc]; rfl⟩
        · rw [if_neg ha]
          exact ⟨_, by simp only [String.append_assoc]; rfl⟩
    · rw [if_neg hw]
      by_cases hg : optStrTruthy e.aggregation = true ∧
          e.aggregation.getD "" ∈ aggKeywords
      · rw [if_pos hg]
        by_cases ha : optStrTruthy e.aggregation = true
        · rw [if_pos ha]
          exact ⟨_, by simp only [String.append_assoc]; rfl⟩
        · rw [if_neg ha]
          exact ⟨_, by simp only [String.append_assoc]; rfl⟩
      · rw [if_neg hg]
        by_cases ha : optStrTruthy e.aggregation = true
        · rw [if_pos ha]
          exact ⟨_, by simp only [String.append_assoc]; rfl⟩
        · rw [if_neg ha]
          exact ⟨_, by simp only [String.append_assoc]; rfl⟩

/-! ### Claim theorems -/

set_option maxRecDepth 16384

/-- C2: with `aggregation = "avg"` over the price-intent defaults the
builder wraps all four value columns, but the `agg_columns[1:]` slice
then drops the first wrapped column, so `AVG(open)` is missing from the
built query even though the loop produced it — the clause keeps only
symbol plus the *remaining* wrapped columns (contradicting both the
spec's "every non-key numeric column is wrapped" and the code's own
"Skip symbol in agg_columns" comment: symbol is not in `agg_columns`). -/
theorem avg_aggregation_drops_first_wrapped_column :
    aggColumns "avg"
        (selectColumns
          { symbols := [ "AAPL"], intent := some StockQueryIntent.price,
            aggregation := some "avg" }) =
      [ "AVG(open) as avg_open", "AVG(high) as avg_high",
        "AVG(low) as avg_low", "AVG(close) as avg_close"] ∧
    buildDynamicSqlQuery
        { symbols := [ "AAPL"], intent := some StockQueryIntent.price,
          aggregation := some "avg" } =
      ( "SELECT symbol, AVG(high) as avg_high, AVG(low) as avg_low, AVG(close) as avg_close FROM stock_data WHERE symbol IN (?) GROUP BY symbol ORDER BY timestamp DESC",
        [ "AAPL"], false) ∧
    strContains
        (buildDynamicSqlQuery
          { symbols := [ "AAPL"], intent := some StockQueryIntent.price,
            aggregation := some "avg" }).1 "AVG(open)" = false := by
  decide

/-- C3 counterexample: with `aggregation = "count"` the value columns
are *not* left unwrapped — each is wrapped as `COUNT(col) as
count_col`; only the `symbol` and `timestamp` keys stay raw. -/
theorem count_aggregation_wraps_columns :
    buildDynamicSqlQuery
        { symbols := [ "AAPL"], intent := some StockQueryIntent.price,
          aggregation := some "count" } =
      ( "SELECT symbol, timestamp, COUNT(open) as count_open, COUNT(high) as count_high, COUNT(low) as count_low, COUNT(close) as count_close FROM stock_data WHERE symbol IN (?) ORDER BY timestamp DESC",
        [ "AAPL"], false) ∧
    strContains
        (buildDynamicSqlQuery
          { symbols := [ "AAPL"], intent := some StockQueryIntent.price,
            aggregation := some "count" }).1 "COUNT(open) as count_open"
      = true := by
  decide

theorem aggColumns_map_of_not_keyword (a : String) (ha : a ∉ aggKeywords)
    (cols : List String) :
    aggColumns a cols = cols.map (fun col =>
      if col = "symbol" ∨ col = "timestamp" then col
      else pyUpper a ++ "(" ++ col ++ ") as " ++ pyLower (pyUpper a) ++
        "_" ++ col) := by
  induction cols with
  | nil => rfl
  | cons c cs ih =>
    rw [aggColumns, List.map_cons]
    by_cases hc : c = "symbol" ∨ c = "timestamp"
    · rw [if_pos hc, if_neg ha, if_pos hc, ih]
    · rw [if_neg hc, if_neg hc, ih]

/-- C3 as amended: for a truthy aggregation outside {avg, sum, max,
min}, the built select clause keeps `symbol` and `timestamp` raw and
wraps every other selected column as `AGG(col) as agg_col`. -/
theorem nonkeyword_aggregation_keeps_keys_wraps_values
    (e : StockQueryExtraction) (ha : optStrTruthy e.aggregation = true)
    (hk : e.aggregation.getD "" ∉ aggKeywords) :
    selectClauseOf e = joinSep ", " ((selectColumns e).map (fun col =>
      if col = "symbol" ∨ col = "timestamp" then col
      else pyUpper (e.aggregation.getD "") ++ "(" ++ col ++ ") as " ++
        pyLower (pyUpper (e.aggregation.getD "")) ++ "_" ++ col)) := by
  rw [selectClauseOf]
  dsimp only
  rw [if_pos ha, if_neg hk, aggColumns_map_of_not_keyword _ hk]

/-- Witness for the amended C3 at the "count" extraction. -/
theorem nonkeyword_aggregation_keeps_keys_wraps_values_witness :
    selectClauseOf
        { symbols := [ "AAPL"], intent := some StockQueryIntent.price,
          aggregation := some "count" } =
      joinSep ", "
        ((selectColumns
            { symbols := [ "AAPL"], intent := some StockQueryIntent.price,
              aggregation := some "count" }).map (fun col =>
          if col = "symbol" ∨ col = "timestamp" then col
          else pyUpper "count" ++ "(" ++ col ++ ") as " ++
            pyLower (pyUpper "count") ++ "_" ++ col)) :=
  nonkeyword_aggregation_keeps_keys_wraps_values
    { symbols := [ "AAPL"], intent := some StockQueryIntent.price,
      aggregation := some "count" } (by decide) (by decide)

/-- C6 counterexample: the "this week" predicate has a lower bound
only — no `timestamp <` upper bound, contrary to the spec's
parenthetical. -/
theorem this_week_lower_bound_only :
    buildTimeFilter "this week" =
      ( "timestamp >= date('now', 'weekday 0', '-6 days')", []) ∧
    strContains (buildTimeFilter "this week").1 "timestamp <" = false := by
  decide

/-- C6 as amended: every fixed-vocabulary phrase yields a predicate
with a `timestamp >=` lower bound, and exactly the phrase "yesterday"
also carries a `timestamp <` upper bound. -/
theorem vocab_phrase_bounds (p : String) (hp : p ∈ vocabPhrases) :
    strContains (buildTimeFilter p).1 "timestamp >=" = true ∧
    strContains (buildTimeFilter p).1 "timestamp <" =
      decide (p = "yesterday") := by
  fin_cases hp <;> exact ⟨by decide, by decide⟩

/-- Witness for `vocab_phrase_bounds` at "yesterday". -/
theorem vocab_phrase_bounds_witness :
    strContains (buildTimeFilter "yesterday").1 "timestamp >=" = true ∧
    strContains (buildTimeFilter "yesterday").1 "timestamp <" = true := by
  have h := vocab_phrase_bounds "yesterday" (by decide)
  exact ⟨h.1, h.2.trans (by decide)⟩

theorem append_ne_empty_left (a b : String) (ha : a ≠ "") : a ++ b ≠ "" := by
  intro h
  apply ha
  have hd := congrArg String.data h
  rw [String.data_append] at hd
  have h0 : a.data = [] := (List.append_eq_nil.mp hd).1
  cases a with
  | mk l => cases h0; rfl

theorem timeFiltersGet_ne_empty (t : String) (h : recognizedVocab t = true) :
    (timeFiltersGet t).1 ≠ "" := by
  have hm : t ∈ vocabPhrases := by simpa [recognizedVocab] using h
  fin_cases hm <;> decide

theorem timeFiltersGet_default (t : String) (h : recognizedVocab t = false) :
    timeFiltersGet t = ( "", []) := by
  have h' : t ∉ vocabPhrases := by
    intro hm
    rw [recognizedVocab, (by simpa using hm : vocabPhrases.contains t = true)]
      at h
    cases h
  simp only [vocabPhrases, List.mem_cons, List.not_mem_nil, or_false,
    not_or] at h'
  obtain ⟨h1, h2, h3, h4, h5, h6, h7, h8⟩ := h'
  rw [timeFiltersGet, if_neg h1, if_neg h2, if_neg h3, if_neg h4, if_neg h5,
    if_neg h6, if_neg h7, if_neg h8]

/-- C5 counterexample: "7 days ago" is neither a vocabulary phrase nor
exactly a numeric pattern, yet the resolver returns a non-empty
predicate — `re.match` accepts the pattern as a *prefix* of the
phrase. -/
theorem time_filter_prefix_counterexample :
    recognizedVocab (pyLower "7 days ago") = false ∧
    exactNumUnit "day" "7 days ago" = false ∧
    exactNumUnit "week" "7 days ago" = false ∧
    exactNumUnit "month" "7 days ago" = false ∧
    buildTimeFilter "7 days ago" =
      ( "timestamp >= date('now', '-7 days')", []) := by
  decide

/-- C5 as amended: the resolver returns a non-empty predicate exactly
for the recognized phrases — the fixed vocabulary together with any
phrase whose lowercase form *starts with* a numeric day/week/month
pattern — and the inert `("", [])` for every other phrase.  (The Lean
embedding is a total function: no input raises.) -/
theorem time_filter_characterization (s : String) :
    (recognizedPhrase s = true → (buildTimeFilter s).1 ≠ "") ∧
    (recognizedPhrase s = false → buildTimeFilter s = ( "", [])) := by
  rw [buildTimeFilter, recognizedPhrase]
  rcases hd : matchNumUnit "day" (pyLower s) with _ | n
  · rcases hw : matchNumUnit "week" (pyLower s) with _ | n
    · rcases hm : matchNumUnit "month" (pyLower s) with _ | n
      · simp only [hd, hw, hm, Option.isSome_none, Bool.false_or]
        exact ⟨timeFiltersGet_ne_empty _, timeFiltersGet_default _⟩
      · simp only [hd, hw, hm, Option.isSome_none, Option.isSome_some,
          Bool.false_or, Bool.or_true, Bool.true_or]
        refine ⟨fun _ => ?_, fun h => by cases h⟩
        exact append_ne_empty_left _ _
          (append_ne_empty_left _ _ (by decide))
    · simp only [hd, hw, Option.isSome_none, Option.isSome_some,
        Bool.false_or, Bool.or_true, Bool.true_or]
      refine ⟨fun _ => ?_, fun h => by cases h⟩
      exact append_ne_empty_left _ _
        (append_ne_empty_left _ _ (by decide))
  · simp only [hd, Option.isSome_some, Bool.true_or]
    refine ⟨fun _ => ?_, fun h => by cases h⟩
    exact append_ne_empty_left _ _
      (append_ne_empty_left _ _ (by decide))

/-- Witness for `time_filter_characterization` at "last week". -/
theorem time_filter_characterization_witness :
    recognizedPhrase "last week" = true ∧
    (buildTimeFilter "last week").1 ≠ "" :=
  ⟨by decide, (time_filter_characterization "last week").1 (by decide)⟩

/-- C7: when executing the built query — the per-symbol loop of the
comparison fan-out or the single query — fails with an exception, the
executor returns the `status:"error"` dictionary carrying the
exception's text and a `query_info` with the extraction's original
symbols.  The embedding of `execute_dynamic_query` is a total
function, so the exception never propagates to the caller. -/
theorem store_error_surfaces (e : StockQueryExtraction)
    (db : String → List String → Except String (List Row)) (m : String)
    (h : (match buildDynamicSqlQuery e with
          | (sql, syms, true) => runMulti db e sql syms
          | (sql, ps, false) => db sql ps) = Except.error m) :
    executeDynamicQuery e db = errorResult e m ∧
    (executeDynamicQuery e db).status = "error" ∧
    (executeDynamicQuery e db).error = some m ∧
    (executeDynamicQuery e db).query_info.symbols = e.symbols := by
  rcases hb : buildDynamicSqlQuery e with ⟨sql, ps, flag⟩
  rw [hb] at h
  cases flag
  · simp only at h
    rw [executeDynamicQuery, hb]
    simp only [h]
    refine ⟨?_, ?_, ?_, ?_⟩ <;> trivial
  · simp only at h
    rw [executeDynamicQuery, hb]
    simp only [h]
    refine ⟨?_, ?_, ?_, ?_⟩ <;> trivial

/-- Witness for `store_error_surfaces`: a store that always raises. -/
theorem store_error_surfaces_witness :
    executeDynamicQuery
        { symbols := [ "AAPL"], intent := some StockQueryIntent.price }
        (fun _ _ => Except.error "unable to open database file") =
      errorResult
        { symbols := [ "AAPL"], intent := some StockQueryIntent.price }
        "unable to open database file" ∧
    (executeDynamicQuery
        { symbols := [ "AAPL"], intent := some StockQueryIntent.price }
        (fun _ _ => Except.error "unable to open database file")).status
      = "error" ∧
    (executeDynamicQuery
        { symbols := [ "AAPL"], intent := some StockQueryIntent.price }
        (fun _ _ => Except.error "unable to open database file")).error
      = some "unable to open database file" ∧
    (executeDynamicQuery
        { symbols := [ "AAPL"], intent := some StockQueryIntent.price }
        (fun _ _ =>
          Except.error "unable to open database file")).query_info.symbols
      = [ "AAPL"] :=
  store_error_surfaces
    { symbols := [ "AAPL"], intent := some StockQueryIntent.price }
    (fun _ _ => Except.error "unable to open database file")
    "unable to open database file" (by rfl)

theorem strContains_self_append (pat suffix : String) :
    strContains (pat ++ suffix) pat = true := by
  apply strContains_of_prefix
  rw [String.data_append]
  exact ⟨_, rfl⟩

/-- Both components of every time-filter result carry an empty
parameter list: the SQL is parameterless on the time side. -/
theorem buildTimeFilter_params_nil (s : String) :
    (buildTimeFilter s).2 = [] := by
  rw [buildTimeFilter]
  rcases hd : matchNumUnit "day" (pyLower s) with _ | n
  · rcases hw : matchNumUnit "week" (pyLower s) with _ | n
    · rcases hm : matchNumUnit "month" (pyLower s) with _ | n
      · simp only [hd, hw, hm]
        rw [timeFiltersGet]
        split_ifs <;> rfl
      · simp only [hd, hw, hm]
    · simp only [hd, hw]
  · simp only [hd]

/-- C10 as amended: with intent comparison and at most one symbol the
builder takes the single-query path (multi flag false), the parameter
list is exactly the symbols list (so with no symbols no symbol filter
is parameterized, and the `symbol IN (...)` clause is added only when a
symbol exists), the query ends in `ORDER BY timestamp DESC LIMIT 50`
when not aggregating, and with exactly one symbol the query carries the
`WHERE symbol IN (?)` filter. -/
theorem comparison_single_symbol_path (e : StockQueryExtraction)
    (hi : e.intent = some StockQueryIntent.comparison)
    (hn : e.symbols.length ≤ 1)
    (ha : optStrTruthy e.aggregation = false) :
    (buildDynamicSqlQuery e).2.2 = false ∧
    (buildDynamicSqlQuery e).2.1 = e.symbols ∧
    (∃ p, (buildDynamicSqlQuery e).1 =
      p ++ " ORDER BY timestamp DESC LIMIT 50") ∧
    (∀ s, e.symbols = [s] →
      strContains (buildDynamicSqlQuery e).1 " WHERE symbol IN (?)" = true) := by
  have hcond : ¬(e.intent = some StockQueryIntent.comparison ∧
      1 < e.symbols.length) := by
    rintro ⟨_, hl⟩
    omega
  rw [buildDynamicSqlQuery, if_neg hcond]
  dsimp only
  simp only [ha, Bool.false_eq_true, false_and, if_false]
  refine ⟨trivial, ?_, ?_, ?_⟩
  · have htw : (if optStrTruthy e.time_range = true then
        if (buildTimeFilter (e.time_range.getD "")).1 ≠ "" then
          ([(buildTimeFilter (e.time_range.getD "")).1],
            (buildTimeFilter (e.time_range.getD "")).2)
        else ([], [])
      else ([], [])).2 = ([] : List String) := by
      split_ifs <;> simp [buildTimeFilter_params_nil]
    rw [htw, List.append_nil]
    by_cases hs : e.symbols ≠ []
    · rw [if_pos hs]
    · rw [if_neg hs]
      push_neg at hs
      exact hs.symm
  · exact ⟨_, by rw [String.append_assoc]; rfl⟩
  · intro s hsym
    simp only [hsym, List.map_cons, List.map_nil]
    rw [if_pos (List.cons_ne_nil s [])]
    by_cases tt : optStrTruthy e.time_range = true
    · rw [if_pos tt]
      by_cases tc : (buildTimeFilter (e.time_range.getD "")).1 ≠ ""
      · rw [if_pos tc]
        simp only [List.cons_append, List.nil_append]
        rw [if_pos (List.cons_ne_nil _ _)]
        simp only [joinSep, String.append_assoc]
        apply strContains_append_right
        apply strContains_append_right
        apply strContains_append_right
        exact strContains_self_append " WHERE symbol IN (?)"
          (" AND " ++ ((buildTimeFilter (e.time_range.getD "")).1 ++
            (" ORDER BY timestamp DESC" ++ " LIMIT 50")))
      · rw [if_neg tc]
        simp only [List.append_nil]
        rw [if_pos (List.cons_ne_nil _ _)]
        simp only [joinSep, String.append_assoc]
        apply strContains_append_right
        apply strContains_append_right
        apply strContains_append_right
        exact strContains_self_append " WHERE symbol IN (?)"
          (" ORDER BY timestamp DESC" ++ " LIMIT 50")
    · rw [if_neg tt]
      simp only [List.append_nil]
      rw [if_pos (List.cons_ne_nil _ _)]
      simp only [joinSep, String.append_assoc]
      apply strContains_append_right
      apply strContains_append_right
      apply strContains_append_right
      exact strContains_self_append " WHERE symbol IN (?)"
        (" ORDER BY timestamp DESC" ++ " LIMIT 50")

/-- C10 counterexample: for intent comparison with an empty symbols
list the built query has no `symbol IN` filter at all — the claim's
"filters with symbol IN (...)" fails in the no-symbol case. -/
theorem comparison_no_symbols_no_in_filter :
    buildDynamicSqlQuery
        { symbols := [], intent := some StockQueryIntent.comparison } =
      ( "SELECT symbol, timestamp, close, rsi, ma5, ma20, volume FROM stock_data ORDER BY timestamp DESC LIMIT 50",
        [], false) ∧
    strContains
        (buildDynamicSqlQuery
          { symbols := [], intent := some StockQueryIntent.comparison }).1
        "symbol IN" = false := by
  decide

/-- Witness for `comparison_single_symbol_path` at a one-symbol
comparison extraction. -/
theorem comparison_single_symbol_path_witness :
    (buildDynamicSqlQuery
        { symbols := [ "AAPL"],
          intent := some StockQueryIntent.comparison }).2.2 = false ∧
    (buildDynamicSqlQuery
        { symbols := [ "AAPL"],
          intent := some StockQueryIntent.comparison }).2.1 = [ "AAPL"] ∧
    (∃ p, (buildDynamicSqlQuery
        { symbols := [ "AAPL"],
          intent := some StockQueryIntent.comparison }).1 =
      p ++ " ORDER BY timestamp DESC LIMIT 50") ∧
    (∀ s, ([ "AAPL"] : List String) = [s] →
      strContains
        (buildDynamicSqlQuery
          { symbols := [ "AAPL"],
            intent := some StockQueryIntent.comparison }).1
        " WHERE symbol IN (?)" = true) :=
  comparison_single_symbol_path
    { symbols := [ "AAPL"], intent := some StockQueryIntent.comparison }
    rfl (by decide) (by decide)

theorem dedupKeepFirst_cons_cons {α : Type} [DecidableEq α] (x y : α)
    (l : List α) (hxy : x ≠ y) :
    dedupKeepFirst (x :: y :: l) = x :: y :: dedupAux [y, x] l := by
  rw [dedupKeepFirst, dedupAux, if_neg (by simp), dedupAux,
    if_neg (by simpa using fun h : y = x => hxy h.symm)]

/-- C4: with aggregation unset the select-column list is the
deduplicated `symbol, timestamp` prefix followed by the explicit
metrics (when non-empty) or the intent defaults; the built query's text
opens with that joined list; the list starts with symbol and timestamp,
has no duplicate, and is the source list with later duplicates removed
(a sublist with the same members). -/
theorem plain_query_column_list (e : StockQueryExtraction)
    (hagg : e.aggregation = none) :
    selectColumns e = dedupKeepFirst
      ( [ "symbol", "timestamp"] ++ (match e.metrics with
        | some ms => if ms = [] then defaultColumns e.intent else ms
        | none => defaultColumns e.intent)) ∧
    (∃ rest, (buildDynamicSqlQuery e).1 =
      "SELECT " ++ joinSep ", " (selectColumns e) ++ rest) ∧
    (selectColumns e).take 2 = [ "symbol", "timestamp"] ∧
    (selectColumns e).Nodup ∧
    (selectColumns e).Sublist
      ( [ "symbol", "timestamp"] ++ (match e.metrics with
        | some ms => if ms = [] then defaultColumns e.intent else ms
        | none => defaultColumns e.intent)) ∧
    (∀ c, c ∈ selectColumns e ↔ c ∈
      ( [ "symbol", "timestamp"] ++ (match e.metrics with
        | some ms => if ms = [] then defaultColumns e.intent else ms
        | none => defaultColumns e.intent))) := by
  have h1 : selectColumns e = dedupKeepFirst
      ( [ "symbol", "timestamp"] ++ (match e.metrics with
        | some ms => if ms = [] then defaultColumns e.intent else ms
        | none => defaultColumns e.intent)) := by
    rw [selectColumns]
    rcases e.metrics with _ | ms
    · rfl
    · by_cases hms : ms = []
      · subst hms
        rfl
      · simp [optListTruthy, hms]
  have hsc : selectClauseOf e = joinSep ", " (selectColumns e) := by
    rw [selectClauseOf]
    simp [hagg, optStrTruthy]
  refine ⟨h1, ?_, ?_, ?_, ?_, ?_⟩
  · obtain ⟨r, hr⟩ := build_query_select e
    exact ⟨r, by rw [hr, hsc]⟩
  · rw [h1]
    simp only [List.cons_append, List.nil_append]
    rw [dedupKeepFirst_cons_cons "symbol" "timestamp" _ (by decide)]
    rfl
  · rw [selectColumns]
    exact dedupKeepFirst_nodup _
  · rw [h1]
    exact dedupKeepFirst_sublist _
  · intro c
    rw [h1]
    exact mem_dedupKeepFirst _ c

/-- Witness for `plain_query_column_list` at a trend extraction with no
metrics. -/
theorem plain_query_column_list_witness :
    selectColumns
        { symbols := [ "BTC"], intent := some StockQueryIntent.trend } =
      dedupKeepFirst
        ( [ "symbol", "timestamp"] ++
          (match (none : Option (List String)) with
            | some ms =>
              if ms = [] then
                defaultColumns (some StockQueryIntent.trend)
              else ms
            | none => defaultColumns (some StockQueryIntent.trend))) ∧
    (∃ rest, (buildDynamicSqlQuery
        { symbols := [ "BTC"], intent := some StockQueryIntent.trend }).1 =
      "SELECT " ++ joinSep ", "
        (selectColumns
          { symbols := [ "BTC"], intent := some StockQueryIntent.trend }) ++
        rest) ∧
    (selectColumns
        { symbols := [ "BTC"],
          intent := some StockQueryIntent.trend }).take 2 =
      [ "symbol", "timestamp"] ∧
    (selectColumns
        { symbols := [ "BTC"], intent := some StockQueryIntent.trend }).Nodup ∧
    (selectColumns
        { symbols := [ "BTC"],
          intent := some StockQueryIntent.trend }).Sublist
      ( [ "symbol", "timestamp"] ++
        (match (none : Option (List String)) with
          | some ms =>
            if ms = [] then
              defaultColumns (some StockQueryIntent.trend)
            else ms
          | none => defaultColumns (some StockQueryIntent.trend))) ∧
    (∀ c, c ∈ selectColumns
        { symbols := [ "BTC"], intent := some StockQueryIntent.trend } ↔
      c ∈ ( [ "symbol", "timestamp"] ++
        (match (none : Option (List String)) with
          | some ms =>
            if ms = [] then
              defaultColumns (some StockQueryIntent.trend)
            else ms
          | none => defaultColumns (some StockQueryIntent.trend)))) :=
  plain_query_column_list
    { symbols := [ "BTC"], intent := some StockQueryIntent.trend } rfl

/-- The volatility branch of the summary: with a non-empty list of
Python-truthy volatility values, all rationals, the summary's
`average_volatility` is their mean rounded to 4 places. -/
theorem summary_volatility_mean (e : StockQueryExtraction)
    (data : List Row) (d0 : Row) (rest : List Row) (qs : List ℚ)
    (hi : e.intent = some StockQueryIntent.volatility)
    (hd : data = d0 :: rest)
    (hk : rowHasKey d0 "volatility" = true)
    (hq : truthyColumn data "volatility" = qs.map SqlVal.real)
    (hne : qs ≠ []) :
    dictGet (generateResultSummary e data) "average_volatility" =
      some (SVal.num (round4 (qs.sum / (qs.length : ℚ)))) := by
  subst hd
  rw [generateResultSummary]
  have hbranch : summaryTry e (d0 :: rest) d0 = Except.ok
      (if optStrTruthy e.time_range = true then
        dictSet
          (dictSet
            (dictSet [] "average_volatility"
              (SVal.num (round4 (qs.sum / (qs.length : ℚ)))))
            "message"
            (SVal.str ( "Average volatility: " ++
              formatFixed4 (qs.sum / (qs.length : ℚ)))))
          "time_range" (SVal.str (e.time_range.getD ""))
      else
        dictSet
          (dictSet [] "average_volatility"
            (SVal.num (round4 (qs.sum / (qs.length : ℚ)))))
          "message"
          (SVal.str ( "Average volatility: " ++
            formatFixed4 (qs.sum / (qs.length : ℚ))))) := by
    rw [summaryTry]
    simp only [hi]
    rw [if_pos hk, hq]
    rw [if_neg (show ¬List.map SqlVal.real qs = [] from
      fun h => hne (List.map_eq_nil_iff.mp h))]
    rw [sumVals_map_real qs hne]
    simp only [valToQ, List.length_map]
  rw [hbranch]
  by_cases ht : optStrTruthy e.time_range = true
  · rw [if_pos ht]
    rw [dictGet_dictSet_ne _ _ _ _ (by decide)]
    rw [dictGet_dictSet_ne _ _ _ _ (by decide)]
    rw [dictGet_dictSet_self]
  · rw [if_neg ht]
    rw [dictGet_dictSet_ne _ _ _ _ (by decide)]
    rw [dictGet_dictSet_self]

/-- C9 as amended: the average excludes rows whose volatility is null
OR zero (Python truthiness), and an empty data list yields the fixed
no-data message. -/
theorem volatility_mean_and_empty (e : StockQueryExtraction)
    (data : List Row) (d0 : Row) (rest : List Row) (qs : List ℚ)
    (hi : e.intent = some StockQueryIntent.volatility)
    (hd : data = d0 :: rest)
    (hk : rowHasKey d0 "volatility" = true)
    (hq : truthyColumn data "volatility" = qs.map SqlVal.real)
    (hne : qs ≠ []) :
    dictGet (generateResultSummary e data) "average_volatility" =
      some (SVal.num (round4 (qs.sum / (qs.length : ℚ)))) ∧
    generateResultSummary e [] =
      [( "message", SVal.str "No data found for the specified criteria")] :=
  ⟨summary_volatility_mean e data d0 rest qs hi hd hk hq hne, rfl⟩

/-- C9 counterexample: a data set holding volatilities 0 and 2 — the
code averages only the truthy values and reports 2, while the claim's
mean over all rows (zero included), rounded, is 1. -/
theorem volatility_zero_excluded :
    dictGet
        (generateResultSummary
          { symbols := [ "AAPL"], intent := some StockQueryIntent.volatility }
          [ [( "symbol", SqlVal.text "AAPL"), ( "volatility", SqlVal.real 0)],
            [( "symbol", SqlVal.text "AAPL"), ( "volatility", SqlVal.real 2)]])
        "average_volatility" = some (SVal.num 2) ∧
    round4 ((0 + 2) / 2) = 1 ∧ (2 : ℚ) ≠ 1 := by
  refine ⟨?_, ?_, by norm_num⟩
  · rw [summary_volatility_mean
      { symbols := [ "AAPL"], intent := some StockQueryIntent.volatility }
      [ [( "symbol", SqlVal.text "AAPL"), ( "volatility", SqlVal.real 0)],
        [( "symbol", SqlVal.text "AAPL"), ( "volatility", SqlVal.real 2)]]
      [( "symbol", SqlVal.text "AAPL"), ( "volatility", SqlVal.real 0)]
      [ [( "symbol", SqlVal.text "AAPL"), ( "volatility", SqlVal.real 2)]]
      [2] rfl rfl (by decide) (by decide) (by decide)]
    norm_num [round4, roundHalfEven]
  · norm_num [round4, roundHalfEven]

/-- Witness for `volatility_mean_and_empty` at volatilities 1 and 3. -/
theorem volatility_mean_and_empty_witness :
    dictGet
        (generateResultSummary
          { symbols := [ "BTC"], intent := some StockQueryIntent.volatility }
          [ [( "volatility", SqlVal.real 1)], [( "volatility", SqlVal.real 3)]])
        "average_volatility" =
      some (SVal.num (round4 (([1, 3] : List ℚ).sum /
        ((([1, 3] : List ℚ).length : ℕ) : ℚ)))) ∧
    generateResultSummary
        { symbols := [ "BTC"], intent := some StockQueryIntent.volatility }
        [] =
      [( "message", SVal.str "No data found for the specified criteria")] :=
  volatility_mean_and_empty
    { symbols := [ "BTC"], intent := some StockQueryIntent.volatility }
    [ [( "volatility", SqlVal.real 1)], [( "volatility", SqlVal.real 3)]]
    [( "volatility", SqlVal.real 1)] [ [( "volatility", SqlVal.real 3)]]
    [1, 3] rfl rfl (by decide) (by decide) (by decide)

/-- C8 counterexample: a text-valued volatility makes `sum` raise; the
handler then sets the summary's message to the raw data list itself,
not to a generic count message. -/
theorem summary_exception_message_is_data :
    generateResultSummary
        { symbols := [ "ETH"], intent := some StockQueryIntent.volatility }
        [ [( "volatility", SqlVal.text "corrupt")]] =
      [( "message",
        SVal.rows [ [( "volatility", SqlVal.text "corrupt")]])] ∧
    SVal.rows [ [( "volatility", SqlVal.text "corrupt")]] ≠
      SVal.str "Retrieved 1 records" := by
  decide

/-- C8 as amended: an exception inside the summary `try` block is
caught locally; the returned summary is the partial summary with its
`message` set to the raw data list, and the executor's result still
carries the full unmodified data. -/
theorem summary_exception_keeps_data (e : StockQueryExtraction)
    (db : String → List String → Except String (List Row))
    (q : String) (ps : List String) (data : List Row) (d0 : Row)
    (rest : List Row) (s : Summary)
    (hb : buildDynamicSqlQuery e = (q, ps, false))
    (hdb : db q ps = Except.ok data)
    (hd : data = d0 :: rest)
    (hs : summaryTry e data d0 = Except.error s) :
    (executeDynamicQuery e db).status = "success" ∧
    (executeDynamicQuery e db).data = some data ∧
    (executeDynamicQuery e db).summary =
      some (dictSet s "message" (SVal.rows data)) := by
  subst hd
  have hx : executeDynamicQuery e db = successResult e q (d0 :: rest) := by
    rw [executeDynamicQuery, hb]
    simp only [hdb]
  rw [hx]
  refine ⟨rfl, rfl, ?_⟩
  show some (generateResultSummary e (d0 :: rest)) = _
  rw [generateResultSummary]
  simp only [hs]

/-- Witness for `summary_exception_keeps_data`: a store returning one
row whose volatility is text. -/
theorem summary_exception_keeps_data_witness :
    (executeDynamicQuery
        { symbols := [ "ETH"], intent := some StockQueryIntent.volatility }
        (fun _ _ =>
          Except.ok [ [( "volatility", SqlVal.text "corrupt")]])).status =
      "success" ∧
    (executeDynamicQuery
        { symbols := [ "ETH"], intent := some StockQueryIntent.volatility }
        (fun _ _ =>
          Except.ok [ [( "volatility", SqlVal.text "corrupt")]])).data =
      some [ [( "volatility", SqlVal.text "corrupt")]] ∧
    (executeDynamicQuery
        { symbols := [ "ETH"], intent := some StockQueryIntent.volatility }
        (fun _ _ =>
          Except.ok [ [( "volatility", SqlVal.text "corrupt")]])).summary =
      some (dictSet [] "message"
        (SVal.rows [ [( "volatility", SqlVal.text "corrupt")]])) :=
  summary_exception_keeps_data
    { symbols := [ "ETH"], intent := some StockQueryIntent.volatility }
    (fun _ _ => Except.ok [ [( "volatility", SqlVal.text "corrupt")]])
    "SELECT symbol, timestamp, volatility, close, atr FROM stock_data WHERE symbol IN (?) ORDER BY timestamp DESC LIMIT 50"
    [ "ETH"] [ [( "volatility", SqlVal.text "corrupt")]]
    [( "volatility", SqlVal.text "corrupt")] [] []
    (by decide) (by rfl) rfl (by rfl)

/-- C1: for a comparison over more than one symbol the builder emits
one parameterized per-symbol query capped by `ORDER BY timestamp DESC
LIMIT 25` with the symbols as the parameter source and the multi-query
flag set; the executor runs it once per symbol, concatenates the
per-symbol row lists, sorts the merged list by (symbol, timestamp)
descending — a permutation of the concatenation, pairwise sorted under
`descLe` — and generates the summary from that sorted merged list. -/
theorem comparison_fanout_merges_and_sorts (e : StockQueryExtraction)
    (db : String → List String → Except String (List Row))
    (fetch : String → List Row)
    (hi : e.intent = some StockQueryIntent.comparison)
    (hn : 1 < e.symbols.length)
    (hdb : ∀ s ∈ e.symbols,
      db (buildDynamicSqlQuery e).1 (multiParams e s) =
        Except.ok (fetch s)) :
    (buildDynamicSqlQuery e).2.2 = true ∧
    (buildDynamicSqlQuery e).2.1 = e.symbols ∧
    (∃ p, (buildDynamicSqlQuery e).1 =
      p ++ " ORDER BY timestamp DESC LIMIT 25") ∧
    ∃ merged : List Row,
      merged.Perm ((e.symbols.map fetch).flatten) ∧
      merged.Pairwise (fun x y => descLe x y = true) ∧
      (executeDynamicQuery e db).status = "success" ∧
      (executeDynamicQuery e db).data = some merged ∧
      (executeDynamicQuery e db).record_count = some merged.length ∧
      (executeDynamicQuery e db).summary =
        some (generateResultSummary e merged) := by
  have hshape : (buildDynamicSqlQuery e).2.1 = e.symbols ∧
      (buildDynamicSqlQuery e).2.2 = true ∧
      ∃ p, (buildDynamicSqlQuery e).1 =
        p ++ " ORDER BY timestamp DESC LIMIT 25" := by
    rw [buildDynamicSqlQuery, if_pos ⟨hi, hn⟩]
    dsimp only
    refine ⟨rfl, rfl, ?_⟩
    exact ⟨_, by rw [String.append_assoc]; rfl⟩
  refine ⟨hshape.2.1, hshape.1, hshape.2.2, ?_⟩
  rcases hb : buildDynamicSqlQuery e with ⟨sql, ps, flag⟩
  have hps : ps = e.symbols := by rw [hb] at hshape; exact hshape.1
  have hflag : flag = true := by rw [hb] at hshape; exact hshape.2.1
  subst hps
  subst hflag
  have hdb' : ∀ s ∈ e.symbols,
      db sql (multiParams e s) = Except.ok (fetch s) := by
    intro s hs
    have := hdb s hs
    rw [hb] at this
    exact this
  have hx : executeDynamicQuery e db =
      successResult e
        ( "Multiple queries executed for " ++ toString e.symbols.length ++
          " symbols: " ++ sql)
        (pySortDesc ((e.symbols.map fetch).flatten)) := by
    rw [executeDynamicQuery, hb]
    dsimp only
    rw [runMulti, runMultiAux_ok db e sql fetch e.symbols [] hdb']
    simp only [List.nil_append]
  refine ⟨pySortDesc ((e.symbols.map fetch).flatten), ?_, ?_, ?_, ?_, ?_, ?_⟩
  · exact List.mergeSort_perm _ _
  · exact List.sorted_mergeSort descLe_trans descLe_total _
  · rw [hx]; rfl
  · rw [hx]; rfl
  · rw [hx]; rfl
  · rw [hx]; rfl

/-- Witness for `comparison_fanout_merges_and_sorts` on a two-symbol
comparison against the sample store. -/
theorem comparison_fanout_merges_and_sorts_witness :
    (buildDynamicSqlQuery extC1).2.2 = true ∧
    (buildDynamicSqlQuery extC1).2.1 = extC1.symbols ∧
    (∃ p, (buildDynamicSqlQuery extC1).1 =
      p ++ " ORDER BY timestamp DESC LIMIT 25") ∧
    ∃ merged : List Row,
      merged.Perm ((extC1.symbols.map fetchC1).flatten) ∧
      merged.Pairwise (fun x y => descLe x y = true) ∧
      (executeDynamicQuery extC1 dbC1).status = "success" ∧
      (executeDynamicQuery extC1 dbC1).data = some merged ∧
      (executeDynamicQuery extC1 dbC1).record_count = some merged.length ∧
      (executeDynamicQuery extC1 dbC1).summary =
        some (generateResultSummary extC1 merged) :=
  comparison_fanout_merges_and_sorts extC1 dbC1 fetchC1 rfl (by decide)
    (by intro s hs; fin_cases hs <;> rfl)
